import Mathlib

/-!
Verification development for the Lifemap application (`src/app.py`).

The application is a single-file Streamlit app.  The parts relevant here are
embedded shallowly:

* `LifeEvent` is the dictionary built by the "Add Event" submit handler
  (`app.py` lines 199-225); machine clock timestamps are modelled as an
  explicit `ℕ` parameter.
* `age_buckets` / `ageBucket` model the `age_buckets` dictionary (lines
  94-104) and the `next((k for k, v in age_buckets.items() if age in v),
  "Unknown")` lookup (line 211): Python's `age in range(lo, hi+1)` becomes
  `lo ≤ age ∧ age ≤ hi`.
* `addEvent` models the form submit handler (lines 197-225): the only
  validation is Python truthiness of `event_title` and `event_description`;
  on success the event is appended and `current_age` is set to the event age.
* `deleteEvent` models the delete button handler (line 268):
  `[e for i, e in enumerate(life_events) if i != idx]`.
* `importEvents` models the import handler (lines 762-764):
  `st.session_state.life_events.extend(imported_data)` - each raw record is
  appended unconditionally.
* `saveReflection` models the "Save Reflection" handler (lines 544-560).

Statistics (means, mode with the pandas tie-break, Pearson correlation,
growth trajectory, recommendation rules) are embedded further below, each
next to the claims about it.  Rationals stand for Python floats and string
comparison `strLe` is codepoint-lexicographic exactly as in Python/pandas.
-/

namespace Lifemap

/-- A life-event record: the dictionary built by the submit handler
(`app.py` lines 200-212).  The advanced-mode extras (duration, location,
tags, ...) are not involved in any claim and are omitted. -/
structure LifeEvent where
  age : ℕ
  title : String
  category : String
  description : String
  sentiment : String
  impact : ℤ
  life_area : String
  lessons_learned : String
  current_perspective : String
  timestamp : ℕ
  range : String
deriving DecidableEq, Repr, Inhabited

/-- The nine fixed age buckets of `age_buckets` (`app.py` lines 94-104), as
`(label, lo, hi)` with membership `lo ≤ age ≤ hi`; the Python dict value is
`list(range(lo, hi+1))`. -/
def age_buckets : List (String × ℕ × ℕ) :=
  [("0-5 (Infancy & Toddler)", 0, 5),
   ("6-12 (Elementary School)", 6, 12),
   ("13-17 (Teenage Years)", 13, 17),
   ("18-22 (College/Early Adult)", 18, 22),
   ("23-29 (Young Professional)", 23, 29),
   ("30-39 (Career Building)", 30, 39),
   ("40-49 (Midlife Growth)", 40, 49),
   ("50-59 (Mature Wisdom)", 50, 59),
   ("60+ (Golden Years)", 60, 100)]

/-- The age-range lookup used when an event is created (`app.py` line 211):
`next((k for k, v in age_buckets.items() if event_age in v), "Unknown")`. -/
def ageBucket (age : ℕ) : String :=
  ((age_buckets.find? fun b => decide (b.2.1 ≤ age ∧ age ≤ b.2.2)).map Prod.fst).getD "Unknown"

/-- The fixed life-area enumeration offered by the form selectbox
(`app.py` lines 162-165), in its original order. -/
def life_areas : List String :=
  ["Personal Growth", "Relationships", "Career", "Health",
   "Family", "Education", "Finances", "Spirituality", "Recreation"]

/-- The raw field values read from the form widgets before the submit
handler runs (`app.py` lines 155-185). -/
structure Fields where
  age : ℕ
  title : String
  category : String
  description : String
  sentiment : String
  impact : ℤ
  life_area : String
  lessons_learned : String
  current_perspective : String
deriving DecidableEq, Repr

/-- The `new_event` dictionary built from the form fields (`app.py` lines
200-212); `now` stands for `datetime.now().isoformat()`. -/
def mkEvent (f : Fields) (now : ℕ) : LifeEvent :=
  { age := f.age, title := f.title, category := f.category,
    description := f.description, sentiment := f.sentiment, impact := f.impact,
    life_area := f.life_area, lessons_learned := f.lessons_learned,
    current_perspective := f.current_perspective, timestamp := now,
    range := ageBucket f.age }

/-- The session state relevant to the claims: `st.session_state.life_events`
and `st.session_state.current_age` (`app.py` lines 123-126). -/
structure Session where
  life_events : List LifeEvent
  current_age : ℕ
deriving DecidableEq, Repr

/-- The form submit handler (`app.py` lines 197-225).  The guard is
`if submitted and event_title and event_description:`: the only check is
that title and description are non-empty strings; on success the event is
appended and `current_age := event_age` (lines 222-223). -/
def addEvent (s : Session) (f : Fields) (now : ℕ) : Session :=
  if f.title ≠ "" ∧ f.description ≠ "" then
    { life_events := s.life_events ++ [mkEvent f now], current_age := f.age }
  else s

/-- The delete button handler (`app.py` line 268):
`[e for i, e in enumerate(life_events) if i != idx]`. -/
def deleteEvent (es : List LifeEvent) (idx : ℕ) : List LifeEvent :=
  (es.enum.filter fun p => p.1 != idx).map Prod.snd

/-- The spec's `DeleteEvent` interface (spec section 4.1), for comparison:
`NotFoundError` on an out-of-range index is modelled as `none`. -/
def deleteEventSpec (es : List LifeEvent) (idx : ℕ) : Option (List LifeEvent) :=
  if idx < es.length then some (es.eraseIdx idx) else none

/-- The import handler (`app.py` lines 762-764):
`st.session_state.life_events.extend(imported_data)`, i.e. each raw record
is appended to the collection one by one, with no validation at all. -/
def importEvents (es : List LifeEvent) (raws : List LifeEvent) : List LifeEvent :=
  raws.foldl (fun acc r => acc ++ [r]) es

/-- The reflection event built by the "Save Reflection" handler (`app.py`
lines 546-558); its `age` is the session's `current_age`. -/
def reflectionEvent (current_age : ℕ) (prompt text : String) (now : ℕ) : LifeEvent :=
  { age := current_age, title := "Personal Reflection",
    category := "🧠 Personal Growth",
    description := "Prompt: " ++ prompt ++ "\n\nReflection: " ++ text,
    sentiment := "Neutral", impact := 5, life_area := "Personal Growth",
    lessons_learned := "", current_perspective := "", timestamp := now,
    range := ageBucket current_age }

/-- The "Save Reflection" handler (`app.py` lines 544-560): guarded by
`if st.button(...) and reflection_text:`. -/
def saveReflection (s : Session) (prompt text : String) (now : ℕ) : Session :=
  if text ≠ "" then
    { s with life_events := s.life_events ++ [reflectionEvent s.current_age prompt text now] }
  else s

/-- A valid set of form fields. -/
def fCareer : Fields :=
  { age := 20, title := "Started college", category := "🎓 Education & Learning",
    description := "Began studies", sentiment := "Positive", impact := 5,
    life_area := "Career", lessons_learned := "", current_perspective := "" }

/-- An empty session (fresh `st.session_state`). -/
def s0 : Session := { life_events := [], current_age := 25 }

/-- Raw imported record, valid by the spec's rules. -/
def rawA : LifeEvent := mkEvent fCareer 0

/-- Raw imported record with `impact = 99`, invalid by the spec's rules. -/
def rawBad : LifeEvent := mkEvent { fCareer with impact := 99, title := "Out of range" } 1

/-- A second valid raw imported record. -/
def rawC : LifeEvent := mkEvent { fCareer with title := "Another event" } 2

/-- Codepoint-lexicographic comparison of char lists, exactly Python's
string `<=`. -/
def strLeAux : List Char → List Char → Bool
  | [], _ => true
  | _ :: _, [] => false
  | a :: as, b :: bs =>
    if a.toNat < b.toNat then true
    else if b.toNat < a.toNat then false
    else strLeAux as bs

/-- Python's string `<=` (codepoint-lexicographic). -/
def strLe (a b : String) : Bool := strLeAux a.data b.data

/-- The smaller of two strings in Python's order. -/
def minStr (a b : String) : String := if strLe a b then a else b

/-- One step of the running minimum used to model `mode()[0]`. -/
def minStep (a : String) : Option String → Option String
  | none => some a
  | some b => some (minStr a b)

/-- The smallest string of a list in Python's order (`none` on `[]`). -/
def minStrFold (xs : List String) : Option String := xs.foldr minStep none

/-- `foldr max 0`: the running maximum used by the mode. -/
def foldMax (xs : List ℕ) : ℕ := xs.foldr max 0

/-- The highest frequency of any value in the list. -/
def maxFreq (xs : List String) : ℕ := foldMax (xs.map fun c => xs.count c)

/-- `Series.mode().iloc[0]`: pandas collects the values tied for the
highest frequency, sorts them, and `.iloc[0]` takes the smallest - so this
is the lexicographically least value whose count equals the maximum
count. -/
def modeFirst (xs : List String) : Option String :=
  minStrFold (xs.filter fun c => decide (xs.count c = maxFreq xs))

/-- `df['category'].mode().iloc[0]` (`app.py` line 290). -/
def topCategory (es : List LifeEvent) : Option String :=
  modeFirst (es.map fun e => e.category)

/-- `df['life_area'].mode().iloc[0]` (`app.py` line 431). -/
def dominantLifeArea (es : List LifeEvent) : Option String :=
  modeFirst (es.map fun e => e.life_area)

/-- The tie-break the spec prescribes instead: the first value of the fixed
enumeration that is tied for the highest frequency. -/
def enumOrderMode (enumList : List String) (xs : List String) : Option String :=
  enumList.find? fun a => decide (xs.count a = maxFreq xs)

/-- Event whose life area is "Personal Growth" (first in the enumeration). -/
def evPG : LifeEvent :=
  mkEvent { fCareer with title := "Growth event", life_area := "Personal Growth" } 0

/-- Event whose life area is "Career" (third in the enumeration but
lexicographically before "Personal Growth"). -/
def evCar : LifeEvent :=
  mkEvent { fCareer with title := "Career event", life_area := "Career" } 1

/-- `df['impact'].mean()`: arithmetic mean of the impact column. -/
def meanImpact (es : List LifeEvent) : ℚ :=
  (es.map fun e => (e.impact : ℚ)).sum / (es.length : ℚ)

/-- `df.nlargest(n, 'age')` sorts by age descending, ties kept in original
order (pandas keeps first); insertion sort with this relation is exactly
that stable descending sort. -/
def sortByAgeDesc (es : List LifeEvent) : List LifeEvent :=
  List.insertionSort (fun a b => b.age ≤ a.age) es

/-- `df.nsmallest(n, 'age')`: stable ascending sort by age. -/
def sortByAgeAsc (es : List LifeEvent) : List LifeEvent :=
  List.insertionSort (fun a b => a.age ≤ b.age) es

instance : IsTotal LifeEvent fun a b => b.age ≤ a.age :=
  ⟨fun a b => le_total b.age a.age⟩

instance : IsTrans LifeEvent fun a b => b.age ≤ a.age :=
  ⟨fun _ _ _ h1 h2 => le_trans h2 h1⟩

instance : IsTotal LifeEvent fun a b => a.age ≤ b.age :=
  ⟨fun a b => le_total a.age b.age⟩

instance : IsTrans LifeEvent fun a b => a.age ≤ b.age :=
  ⟨fun _ _ _ h1 h2 => le_trans h1 h2⟩

/-- `df.nlargest(3, 'age')` (`app.py` line 437). -/
def recent3 (es : List LifeEvent) : List LifeEvent := (sortByAgeDesc es).take 3

/-- `df.nsmallest(3, 'age')` (`app.py` line 439). -/
def early3 (es : List LifeEvent) : List LifeEvent := (sortByAgeAsc es).take 3

/-- The two growth-trajectory labels printed at `app.py` lines 443/445. -/
inductive Trajectory where
  | Increasing
  | Stabilizing
deriving DecidableEq, Repr

/-- The growth-trajectory insight (`app.py` lines 436-445): only computed
when `len(df) >= 3`; `Increasing` iff the mean impact of the 3 oldest-age
events strictly exceeds that of the 3 youngest-age events. -/
def growthTrajectory (es : List LifeEvent) : Option Trajectory :=
  if es.length < 3 then none
  else if meanImpact (early3 es) < meanImpact (recent3 es) then some Trajectory.Increasing
  else some Trajectory.Stabilizing

/-- The spec's worked example: ages 10,20,30,40,50 with impacts
2,2,2,8,8. -/
def es7 : List LifeEvent :=
  [mkEvent { fCareer with age := 10, impact := 2 } 0,
   mkEvent { fCareer with age := 20, impact := 2 } 1,
   mkEvent { fCareer with age := 30, impact := 2 } 2,
   mkEvent { fCareer with age := 40, impact := 8 } 3,
   mkEvent { fCareer with age := 50, impact := 8 } 4]

/-- `(df['sentiment'] == 'Positive').mean()` (`app.py` line 485): the
fraction of events whose sentiment is Positive. -/
def posFrac (es : List LifeEvent) : ℚ :=
  ((es.countP fun e => decide (e.sentiment = "Positive")) : ℚ) / (es.length : ℚ)

/-- `len(df[df['impact'] >= 8])` (`app.py` line 494). -/
def highImpactCount (es : List LifeEvent) : ℕ :=
  (es.filter fun e => decide ((8 : ℤ) ≤ e.impact)).length

/-- `df.nlargest(5, 'age')` (`app.py` line 513). -/
def recent5 (es : List LifeEvent) : List LifeEvent := (sortByAgeDesc es).take 5

/-- `(recent_events['sentiment'] == 'Negative').sum()` (`app.py` line 514). -/
def recentNegCount (es : List LifeEvent) : ℕ :=
  (recent5 es).countP fun e => decide (e.sentiment = "Negative")

/-- A coaching recommendation entry (`app.py` lines 487-519). -/
structure RecItem where
  area : String
  recommendation : String
  action : String
deriving DecidableEq, Repr

/-- The recommendation list built at `app.py` lines 482-519: four
independent threshold rules appended in fixed order.  Rule 3 names
`life_area_counts.index[0]`; when its `> 0.5 * count` condition holds that
area is the unique majority area, which is what `dominantLifeArea`
returns. -/
def recommendations (es : List LifeEvent) : List RecItem :=
  (if posFrac es < 2/5 then
    [{ area := "Mindset & Perspective",
       recommendation := "Practice gratitude journaling to identify more positive moments in your daily life.",
       action := "Write down 3 positive things each day for the next week." }]
   else []) ++
  (if (highImpactCount es : ℚ) < (es.length : ℚ) * (3/10) then
    [{ area := "Goal Setting",
       recommendation := "Set more ambitious goals to create meaningful, high-impact experiences.",
       action := "Identify one area where you want to create a significant positive change." }]
   else []) ++
  (if (es.length : ℚ) * (1/2) < (maxFreq (es.map fun e => e.life_area) : ℚ) then
    [{ area := "Life Balance",
       recommendation := "You are heavily focused on " ++ (dominantLifeArea es).getD "" ++
         ". Consider diversifying your experiences.",
       action := "Plan one activity in a different life area this month." }]
   else []) ++
  (if 5 ≤ es.length ∧ 3 ≤ recentNegCount es then
    [{ area := "Stress Management",
       recommendation := "Recent events show some challenges. Focus on stress management and self-care.",
       action := "Implement a daily 10-minute mindfulness or relaxation practice." }]
   else [])

/-- 10 events of which exactly 3 are Positive (ratio 0.3). -/
def es8fire : List LifeEvent :=
  [mkEvent { fCareer with sentiment := "Positive", age := 10 } 0,
   mkEvent { fCareer with sentiment := "Positive", age := 11 } 1,
   mkEvent { fCareer with sentiment := "Positive", age := 12 } 2,
   mkEvent { fCareer with sentiment := "Neutral", age := 13 } 3,
   mkEvent { fCareer with sentiment := "Neutral", age := 14 } 4,
   mkEvent { fCareer with sentiment := "Negative", age := 15 } 5,
   mkEvent { fCareer with sentiment := "Negative", age := 16 } 6,
   mkEvent { fCareer with sentiment := "Mixed", age := 17 } 7,
   mkEvent { fCareer with sentiment := "Mixed", age := 18 } 8,
   mkEvent { fCareer with sentiment := "Neutral", age := 19 } 9]

/-- 10 events of which exactly 5 are Positive (ratio 0.5). -/
def es8nofire : List LifeEvent :=
  [mkEvent { fCareer with sentiment := "Positive", age := 10 } 0,
   mkEvent { fCareer with sentiment := "Positive", age := 11 } 1,
   mkEvent { fCareer with sentiment := "Positive", age := 12 } 2,
   mkEvent { fCareer with sentiment := "Positive", age := 13 } 3,
   mkEvent { fCareer with sentiment := "Positive", age := 14 } 4,
   mkEvent { fCareer with sentiment := "Negative", age := 15 } 5,
   mkEvent { fCareer with sentiment := "Negative", age := 16 } 6,
   mkEvent { fCareer with sentiment := "Mixed", age := 17 } 7,
   mkEvent { fCareer with sentiment := "Mixed", age := 18 } 8,
   mkEvent { fCareer with sentiment := "Neutral", age := 19 } 9]

/-- `Σx` over a list of (x, y) pairs. -/
def sumFst (ps : List (ℚ × ℚ)) : ℚ := (ps.map Prod.fst).sum

/-- `Σy`. -/
def sumSnd (ps : List (ℚ × ℚ)) : ℚ := (ps.map Prod.snd).sum

/-- `Σx²`. -/
def sumFstSq (ps : List (ℚ × ℚ)) : ℚ := (ps.map fun p => p.1 * p.1).sum

/-- `Σy²`. -/
def sumSndSq (ps : List (ℚ × ℚ)) : ℚ := (ps.map fun p => p.2 * p.2).sum

/-- `Σxy`. -/
def sumProd (ps : List (ℚ × ℚ)) : ℚ := (ps.map fun p => p.1 * p.2).sum

/-- `n·Σx² − (Σx)²`, i.e. `n²` times the variance of the first series. -/
def varFstN (ps : List (ℚ × ℚ)) : ℚ :=
  ps.length * sumFstSq ps - sumFst ps * sumFst ps

/-- `n·Σy² − (Σy)²`, i.e. `n²` times the variance of the second series. -/
def varSndN (ps : List (ℚ × ℚ)) : ℚ :=
  ps.length * sumSndSq ps - sumSnd ps * sumSnd ps

/-- `n·Σxy − Σx·Σy`, i.e. `n²` times the covariance. -/
def covN (ps : List (ℚ × ℚ)) : ℚ :=
  ps.length * sumProd ps - sumFst ps * sumSnd ps

/-- `Series.corr` (`app.py` line 384): the standard Pearson coefficient in
the equivalent scaled form `(nΣxy − ΣxΣy) / √((nΣx² − (Σx)²)(nΣy² − (Σy)²))`
- multiplying numerator and denominator of covariance/(σx·σy) by `n²`.
pandas yields NaN (modelled as `none`) with fewer than 2 points or a
zero-variance series. -/
noncomputable def pearson (ps : List (ℚ × ℚ)) : Option ℝ :=
  if ps.length < 2 ∨ varFstN ps = 0 ∨ varSndN ps = 0 then none
  else some ((covN ps : ℝ) / Real.sqrt ((varFstN ps : ℝ) * (varSndN ps : ℝ)))

/-- The (age, impact) pairs of a collection. -/
def agePairs (es : List LifeEvent) : List (ℚ × ℚ) :=
  es.map fun e => ((e.age : ℚ), (e.impact : ℚ))

/-- `df['age'].corr(df['impact'])` (`app.py` line 384). -/
noncomputable def ageImpactCorr (es : List LifeEvent) : Option ℝ :=
  pearson (agePairs es)

/-- The spec's worked example: (age, impact) pairs (10,3), (25,9), (40,6). -/
def es6 : List LifeEvent :=
  [mkEvent { fCareer with age := 10, impact := 3 } 0,
   mkEvent { fCareer with age := 25, impact := 9 } 1,
   mkEvent { fCareer with age := 40, impact := 6 } 2]

/-- The age column. -/
def ages (es : List LifeEvent) : List ℕ := es.map fun e => e.age

/-- `df['age'].max()` (0 on an empty frame is never used: the page guards
on a non-empty collection). -/
def maxAge (es : List LifeEvent) : ℕ := (ages es).foldr max 0

/-- One step of the running minimum over `ℕ`. -/
def natMinStep (a : ℕ) : Option ℕ → Option ℕ
  | none => some a
  | some b => some (min a b)

/-- `df['age'].min()` as an option. -/
def minAge (es : List LifeEvent) : Option ℕ := (ages es).foldr natMinStep none

/-- `df['age'].max() - df['age'].min()` (`app.py` line 287). -/
def ageSpan (es : List LifeEvent) : ℕ := maxAge es - (minAge es).getD 0

/-- `df.groupby(['range', 'sentiment']).size()` (`app.py` line 327), as the
function giving each (age-range, sentiment) pair its count. -/
def countByRangeSentiment (es : List LifeEvent) (r s : String) : ℕ :=
  es.countP fun e => decide (e.range = r ∧ e.sentiment = s)

/-- The derived overview statistics of the Visual Analytics page: count,
mean impact, age span, top category (`app.py` lines 280-291), the grouped
counts (line 327) and the age-impact correlation (line 384). -/
@[ext]
structure AggregateSnapshot where
  count : ℕ
  meanImpact : ℚ
  ageSpan : ℕ
  topCategory : Option String
  countsByRangeSentiment : String → String → ℕ
  corr : Option ℝ

/-- `Compute`: the snapshot computed fresh from the collection on every
query. -/
noncomputable def compute (es : List LifeEvent) : AggregateSnapshot :=
  { count := es.length,
    meanImpact := meanImpact es,
    ageSpan := ageSpan es,
    topCategory := topCategory es,
    countsByRangeSentiment := countByRangeSentiment es,
    corr := ageImpactCorr es }

instance : LeftCommutative (max : ℕ → ℕ → ℕ) :=
  ⟨fun a b c => max_left_comm a b c⟩

instance : LeftCommutative natMinStep :=
  ⟨fun a b m => by cases m <;> simp [natMinStep, min_comm, min_left_comm]⟩

/-! ### Theorems -/

/-- Helper: `list.extend` is plain list concatenation. -/
theorem importEvents_eq_append (es raws : List LifeEvent) :
    importEvents es raws = es ++ raws := by
  induction raws generalizing es with
  | nil => simp [importEvents]
  | cons r rs ih =>
    simp only [importEvents, List.foldl_cons] at *
    rw [ih (es ++ [r])]
    simp

/-- C1, counterexample: importing 3 raw records where the 2nd has
`impact = 99` makes the collection grow by 3, not 2: no record is skipped,
every raw record (the invalid one included) is appended. -/
theorem C1_counterexample :
    importEvents [] [rawA, rawBad, rawC] = [rawA, rawBad, rawC] ∧
    (importEvents [] [rawA, rawBad, rawC]).length = 3 ∧
    rawBad.impact = 99 := by
  refine ⟨importEvents_eq_append [] [rawA, rawBad, rawC], ?_, rfl⟩
  rw [importEvents_eq_append]
  rfl

/-- C1 (amended): the import handler performs no per-record validation and
produces no report: every raw record, valid or not, is appended to the
collection in input order, so the collection grows by exactly the number of
raw records and each imported record sits at its input position after the
old contents. -/
theorem C1_import_appends_all (es raws : List LifeEvent) :
    importEvents es raws = es ++ raws ∧
    (importEvents es raws).length = es.length + raws.length ∧
    ∀ i : Fin raws.length, (importEvents es raws)[es.length + i.val]? = raws[i.val]? := by
  refine ⟨importEvents_eq_append es raws, ?_, ?_⟩
  · rw [importEvents_eq_append]; simp
  · intro i
    rw [importEvents_eq_append]
    rw [List.getElem?_append_right (by omega)]
    congr 1
    omega

/-- C2, counterexample: the submit handler does not range-check `age` or
`impact`.  With `age = 150` (and non-empty title/description) the event is
appended - the collection changes and no `ValidationError` exists; the same
happens with `impact = 0`. -/
theorem C2_counterexample :
    (addEvent s0 { fCareer with age := 150 } 0).life_events.length = 1 ∧
    (addEvent s0 { fCareer with impact := 0 } 0).life_events.length = 1 ∧
    s0.life_events.length = 0 := by
  refine ⟨?_, ?_, rfl⟩ <;> rfl

/-- C2 (amended): the submit handler validates only Python truthiness of
`title` and `description`: with an empty title or description the collection
is exactly unchanged (the handler silently does nothing; no
`ValidationError` value exists), while any field set with non-empty title
and description - including `age = 150` or `impact = 0` - is appended. -/
theorem C2_validation_only_nonempty_text :
    (∀ (s : Session) (f : Fields) (now : ℕ), f.title = "" → addEvent s f now = s) ∧
    (∀ (s : Session) (f : Fields) (now : ℕ), f.description = "" → addEvent s f now = s) ∧
    (∀ (s : Session) (f : Fields) (now : ℕ), f.title ≠ "" → f.description ≠ "" →
      (addEvent s f now).life_events = s.life_events ++ [mkEvent f now]) := by
  refine ⟨?_, ?_, ?_⟩
  · intro s f now h
    simp [addEvent, h]
  · intro s f now h
    simp [addEvent, h]
  · intro s f now h1 h2
    simp [addEvent, h1, h2]

/-- C2 witness: concrete uses of the amended statement. -/
theorem C2_witness :
    addEvent s0 { fCareer with title := "" } 0 = s0 ∧
    (addEvent s0 fCareer 0).life_events = s0.life_events ++ [mkEvent fCareer 0] :=
  ⟨C2_validation_only_nonempty_text.1 s0 { fCareer with title := "" } 0 rfl,
   C2_validation_only_nonempty_text.2.2 s0 fCareer 0 (by decide) (by decide)⟩

/-- C3, counterexample: an age above 100 is not absorbed by the last bucket;
the lookup falls through to its `"Unknown"` default. -/
theorem C3_counterexample :
    ageBucket 101 = "Unknown" ∧ ageBucket 101 ≠ "60+ (Golden Years)" := by
  refine ⟨rfl, ?_⟩
  decide

/-- C3 (amended): `ageBucket` is a deterministic total function; on ages
0-100 the nine closed, contiguous buckets cover every age exactly once, with
the sample values the spec lists; any age above 100 yields `"Unknown"`
rather than the last bucket. -/
theorem C3_ageBucket_partition :
    (∀ a : Fin 101, (age_buckets.countP fun b => decide (b.2.1 ≤ a.val ∧ a.val ≤ b.2.2)) = 1) ∧
    ageBucket 0 = "0-5 (Infancy & Toddler)" ∧
    ageBucket 5 = "0-5 (Infancy & Toddler)" ∧
    ageBucket 6 = "6-12 (Elementary School)" ∧
    ageBucket 59 = "50-59 (Mature Wisdom)" ∧
    ageBucket 60 = "60+ (Golden Years)" ∧
    ageBucket 100 = "60+ (Golden Years)" ∧
    (∀ k : ℕ, ageBucket (101 + k) = "Unknown") := by
  refine ⟨by decide, rfl, rfl, rfl, rfl, rfl, rfl, ?_⟩
  intro k
  have hnone : (age_buckets.find? fun b => decide (b.2.1 ≤ 101 + k ∧ 101 + k ≤ b.2.2)) = none := by
    rw [List.find?_eq_none]
    intro b hb
    have hhi : b.2.2 ≤ 100 := by fin_cases hb <;> norm_num
    simp only [decide_eq_true_eq]
    omega
  simp only [ageBucket]
  rw [hnone]
  rfl

/-- Helper: the filtered comprehension over `enumerate` with a shifted start
index removes exactly the element at position `idx - n` (when in range). -/
theorem deleteEvent_enumFrom (es : List LifeEvent) (n idx : ℕ) :
    ((List.enumFrom n es).filter fun p => p.1 != idx).map Prod.snd =
      if idx < n then es else es.eraseIdx (idx - n) := by
  induction es generalizing n with
  | nil => simp
  | cons e es ih =>
    simp only [List.enumFrom, List.filter]
    rcases Nat.lt_trichotomy idx n with h | h | h
    · have hne : (n != idx) = true := by simp; omega
      rw [hne]
      simp only [List.map]
      rw [ih (n + 1)]
      rw [if_pos (by omega), if_pos h]
    · subst h
      have heq : (idx != idx) = false := by simp
      rw [heq]
      rw [ih (idx + 1)]
      rw [if_pos (by omega), if_neg (by omega)]
      simp [List.eraseIdx]
    · have hne : (n != idx) = true := by simp; omega
      rw [hne]
      simp only [List.map]
      rw [ih (n + 1)]
      rw [if_neg (by omega), if_neg (by omega)]
      have : idx - n = (idx - (n + 1)) + 1 := by omega
      rw [this]
      simp [List.eraseIdx]

/-- Helper: the delete handler is `eraseIdx` (which also leaves the list
unchanged when the index is out of range). -/
theorem deleteEvent_eq_eraseIdx (es : List LifeEvent) (idx : ℕ) :
    deleteEvent es idx = es.eraseIdx idx := by
  have h := deleteEvent_enumFrom es 0 idx
  rw [if_neg (by omega), Nat.sub_zero] at h
  simpa [deleteEvent, List.enum] using h

/-- C5, counterexample: deleting index 0 from an empty store silently
returns the unchanged (empty) store; no `NotFoundError` occurs anywhere in
the handler, whereas the spec's `DeleteEvent` would fail there. -/
theorem C5_counterexample :
    deleteEvent [] 0 = [] ∧ deleteEventSpec [] 0 = none := by
  exact ⟨rfl, rfl⟩

/-- C5 (amended): on any out-of-range index the delete handler leaves the
collection exactly unchanged but does not fail - it raises no error of any
kind; in particular an empty store still has 0 records afterwards.  (On an
in-range index it removes exactly the element at that position.) -/
theorem C5_delete_out_of_range_noop :
    (∀ (es : List LifeEvent) (idx : ℕ), es.length ≤ idx → deleteEvent es idx = es) ∧
    (∀ (es : List LifeEvent) (idx : ℕ), deleteEvent es idx = es.eraseIdx idx) ∧
    (deleteEvent [] 0).length = 0 := by
  refine ⟨?_, deleteEvent_eq_eraseIdx, rfl⟩
  intro es idx h
  rw [deleteEvent_eq_eraseIdx]
  exact List.eraseIdx_eq_self.mpr h

/-- C5 witness: concrete use of the amended statement. -/
theorem C5_witness : deleteEvent [rawA] 5 = [rawA] :=
  C5_delete_out_of_range_noop.1 [rawA] 5 (by decide)

/-- C10: a successful submit sets the session's `current_age` to the age of
the event just added (besides appending the record); the next form shows
`current_age` as its default age, and a reflection saved afterwards carries
exactly that age. -/
theorem C10_addEvent_updates_current_age :
    (∀ (s : Session) (f : Fields) (now : ℕ), f.title ≠ "" → f.description ≠ "" →
      (addEvent s f now).current_age = f.age ∧
      (addEvent s f now).life_events = s.life_events ++ [mkEvent f now]) ∧
    (∀ (s : Session) (f : Fields) (now now2 : ℕ) (prompt text : String),
      f.title ≠ "" → f.description ≠ "" → text ≠ "" →
      ((saveReflection (addEvent s f now) prompt text now2).life_events.getLast?).map
        LifeEvent.age = some f.age) := by
  constructor
  · intro s f now h1 h2
    constructor <;> simp [addEvent, h1, h2]
  · intro s f now now2 prompt text h1 h2 h3
    have hadd : (addEvent s f now).current_age = f.age := by simp [addEvent, h1, h2]
    simp [saveReflection, h3, List.getLast?_concat, hadd, reflectionEvent]

/-- C10 witness: concrete use. -/
theorem C10_witness :
    (addEvent s0 { fCareer with age := 33 } 0).current_age = 33 ∧
    (addEvent s0 { fCareer with age := 33 } 0).life_events =
      s0.life_events ++ [mkEvent { fCareer with age := 33 } 0] :=
  C10_addEvent_updates_current_age.1 s0 { fCareer with age := 33 } 0 (by decide) (by decide)

theorem strLeAux_refl : ∀ xs : List Char, strLeAux xs xs = true := by
  intro xs
  induction xs with
  | nil => rfl
  | cons a as ih => simp [strLeAux, ih]

theorem strLeAux_total : ∀ xs ys : List Char, strLeAux xs ys = true ∨ strLeAux ys xs = true := by
  intro xs
  induction xs with
  | nil => intro ys; left; rfl
  | cons a as ih =>
    intro ys
    cases ys with
    | nil => right; rfl
    | cons b bs =>
      simp only [strLeAux]
      rcases Nat.lt_trichotomy a.toNat b.toNat with h | h | h
      · left; simp [h]
      · have h1 : ¬ a.toNat < b.toNat := by omega
        have h2 : ¬ b.toNat < a.toNat := by omega
        simp only [if_neg h1, if_neg h2]
        exact ih bs
      · right; simp [h]

theorem strLeAux_trans : ∀ xs ys zs : List Char, strLeAux xs ys = true →
    strLeAux ys zs = true → strLeAux xs zs = true := by
  intro xs
  induction xs with
  | nil => intro ys zs _ _; rfl
  | cons a as ih =>
    intro ys zs h1 h2
    cases ys with
    | nil => simp [strLeAux] at h1
    | cons b bs =>
      cases zs with
      | nil => simp [strLeAux] at h2
      | cons c cs =>
        simp only [strLeAux] at h1 h2 ⊢
        rcases Nat.lt_trichotomy a.toNat b.toNat with hab | hab | hab
        · rcases Nat.lt_trichotomy b.toNat c.toNat with hbc | hbc | hbc
          · rw [if_pos (by omega : a.toNat < c.toNat)]
          · rw [if_pos (by omega : a.toNat < c.toNat)]
          · rw [if_neg (by omega : ¬ b.toNat < c.toNat),
              if_pos (by omega : c.toNat < b.toNat)] at h2
            exact absurd h2 (by simp)
        · rcases Nat.lt_trichotomy b.toNat c.toNat with hbc | hbc | hbc
          · rw [if_pos (by omega : a.toNat < c.toNat)]
          · rw [if_neg (by omega : ¬ a.toNat < b.toNat),
              if_neg (by omega : ¬ b.toNat < a.toNat)] at h1
            rw [if_neg (by omega : ¬ b.toNat < c.toNat),
              if_neg (by omega : ¬ c.toNat < b.toNat)] at h2
            rw [if_neg (by omega : ¬ a.toNat < c.toNat),
              if_neg (by omega : ¬ c.toNat < a.toNat)]
            exact ih bs cs h1 h2
          · rw [if_neg (by omega : ¬ b.toNat < c.toNat),
              if_pos (by omega : c.toNat < b.toNat)] at h2
            exact absurd h2 (by simp)
        · rw [if_neg (by omega : ¬ a.toNat < b.toNat),
            if_pos (by omega : b.toNat < a.toNat)] at h1
          exact absurd h1 (by simp)

theorem strLeAux_antisymm : ∀ xs ys : List Char, strLeAux xs ys = true →
    strLeAux ys xs = true → xs = ys := by
  intro xs
  induction xs with
  | nil =>
    intro ys _ h2
    cases ys with
    | nil => rfl
    | cons b bs => simp [strLeAux] at h2
  | cons a as ih =>
    intro ys h1 h2
    cases ys with
    | nil => simp [strLeAux] at h1
    | cons b bs =>
      simp only [strLeAux] at h1 h2
      rcases Nat.lt_trichotomy a.toNat b.toNat with hab | hab | hab
      · rw [if_neg (by omega : ¬ b.toNat < a.toNat), if_pos hab] at h2
        exact absurd h2 (by simp)
      · have hc : a = b := Char.eq_of_val_eq (UInt32.eq_of_val_eq (Fin.ext hab))
        subst hc
        simp only [if_neg (by omega : ¬ a.toNat < a.toNat)] at h1 h2
        rw [ih bs h1 h2]
      · rw [if_neg (by omega : ¬ a.toNat < b.toNat), if_pos hab] at h1
        exact absurd h1 (by simp)

theorem strLe_refl (a : String) : strLe a a = true := strLeAux_refl a.data

theorem strLe_total (a b : String) : strLe a b = true ∨ strLe b a = true :=
  strLeAux_total a.data b.data

theorem strLe_trans {a b c : String} (h1 : strLe a b = true) (h2 : strLe b c = true) :
    strLe a c = true := strLeAux_trans a.data b.data c.data h1 h2

theorem strLe_antisymm {a b : String} (h1 : strLe a b = true) (h2 : strLe b a = true) :
    a = b := String.ext (strLeAux_antisymm a.data b.data h1 h2)

theorem minStr_cases (a b : String) :
    (minStr a b = a ∧ strLe a b = true) ∨ (minStr a b = b ∧ strLe b a = true) := by
  by_cases h : strLe a b = true
  · left; exact ⟨by simp [minStr, h], h⟩
  · right
    rcases strLe_total a b with h' | h'
    · exact absurd h' h
    · exact ⟨by simp [minStr, h], h'⟩

theorem minStr_comm (a b : String) : minStr a b = minStr b a := by
  by_cases h1 : strLe a b = true <;> by_cases h2 : strLe b a = true
  · have := strLe_antisymm h1 h2
    subst this; rfl
  · simp [minStr, h1, h2]
  · simp [minStr, h1, h2]
  · rcases strLe_total a b with h | h
    · exact absurd h h1
    · exact absurd h h2

theorem minStr_assoc (a b c : String) : minStr (minStr a b) c = minStr a (minStr b c) := by
  rcases minStr_cases a b with ⟨hab, lab⟩ | ⟨hab, lab⟩ <;>
    rcases minStr_cases b c with ⟨hbc, lbc⟩ | ⟨hbc, lbc⟩
  · rw [hab, hbc, hab]
    simp [minStr, strLe_trans lab lbc]
  · rw [hab, hbc]
  · rw [hab, hbc, hab]
  · rw [hab, hbc]
    rcases minStr_cases a c with ⟨hac, lac⟩ | ⟨hac, _⟩
    · rw [hac]
      exact (strLe_antisymm lac (strLe_trans lbc lab)).symm
    · rw [hac]

theorem minStr_left_comm (a b c : String) : minStr a (minStr b c) = minStr b (minStr a c) := by
  rw [← minStr_assoc, minStr_comm a b, minStr_assoc]

theorem minStep_left_comm (a b : String) (m : Option String) :
    minStep a (minStep b m) = minStep b (minStep a m) := by
  cases m with
  | none => simp [minStep, minStr_comm]
  | some c => simp [minStep, minStr_left_comm]

theorem minStrFold_perm {xs ys : List String} (h : xs.Perm ys) :
    minStrFold xs = minStrFold ys := by
  induction h with
  | nil => rfl
  | cons a _ ih =>
    simp only [minStrFold, List.foldr] at *
    rw [ih]
  | swap a b l =>
    simp only [minStrFold, List.foldr]
    exact (minStep_left_comm a b (l.foldr minStep none)).symm
  | trans _ _ ih1 ih2 => exact ih1.trans ih2

theorem minStrFold_eq_none {xs : List String} : minStrFold xs = none ↔ xs = [] := by
  cases xs with
  | nil => simp [minStrFold]
  | cons a l =>
    simp only [minStrFold, List.foldr]
    cases l.foldr minStep none <;> simp [minStep]

theorem minStrFold_mem {xs : List String} {m : String} (h : minStrFold xs = some m) :
    m ∈ xs := by
  induction xs generalizing m with
  | nil => simp [minStrFold] at h
  | cons a l ih =>
    simp only [minStrFold, List.foldr] at h
    cases hl : l.foldr minStep none with
    | none =>
      rw [hl] at h
      simp only [minStep] at h
      simp [← Option.some_inj.mp h]
    | some b =>
      rw [hl] at h
      simp only [minStep] at h
      have hb : minStrFold l = some b := hl
      rcases minStr_cases a b with ⟨he, _⟩ | ⟨he, _⟩
      · rw [he] at h
        simp [← Option.some_inj.mp h]
      · rw [he] at h
        have := ih (m := m) (by rw [hb, Option.some_inj.mp h])
        exact List.mem_cons_of_mem a this

theorem minStrFold_le {xs : List String} {m : String} (h : minStrFold xs = some m) :
    ∀ x ∈ xs, strLe m x = true := by
  induction xs generalizing m with
  | nil => simp
  | cons a l ih =>
    intro x hx
    simp only [minStrFold, List.foldr] at h
    cases hl : l.foldr minStep none with
    | none =>
      have hnil : l = [] := minStrFold_eq_none.mp hl
      rw [hl] at h
      simp only [minStep] at h
      have hm : m = a := (Option.some_inj.mp h).symm
      rcases List.mem_cons.mp hx with hx2 | hx2
      · rw [hm, hx2]; exact strLe_refl a
      · rw [hnil] at hx2; simp at hx2
    | some b =>
      rw [hl] at h
      simp only [minStep] at h
      have hm : m = minStr a b := (Option.some_inj.mp h).symm
      subst hm
      rcases List.mem_cons.mp hx with hx | hx
      · rw [hx]
        rcases minStr_cases a b with ⟨he, _⟩ | ⟨he, hle⟩ <;> rw [he]
        · exact strLe_refl a
        · exact hle
      · have hbx : strLe b x = true := ih (m := b) hl x hx
        rcases minStr_cases a b with ⟨he, hle⟩ | ⟨he, _⟩ <;> rw [he]
        · exact strLe_trans hle hbx
        · exact hbx

/-- What `modeFirst` returns: a most-frequent value of the list that is
lexicographically least among all most-frequent values. -/
theorem modeFirst_spec {xs : List String} {m : String} (h : modeFirst xs = some m) :
    m ∈ xs ∧ xs.count m = maxFreq xs ∧
      ∀ c ∈ xs, xs.count c = maxFreq xs → strLe m c = true := by
  have hmem := minStrFold_mem h
  rw [List.mem_filter] at hmem
  refine ⟨hmem.1, by simpa using hmem.2, ?_⟩
  intro c hc hcnt
  exact minStrFold_le h c (List.mem_filter.mpr ⟨hc, by simpa using hcnt⟩)

/-- C4, counterexample: with "Personal Growth" and "Career" tied for the
highest life-area frequency, the code returns "Career" (the
lexicographically least tied value, because pandas sorts the modes), while
the claim's enumeration-order tie-break would return "Personal Growth". -/
theorem C4_counterexample :
    dominantLifeArea [evPG, evCar] = some "Career" ∧
    enumOrderMode life_areas ([evPG, evCar].map fun e => e.life_area) =
      some "Personal Growth" ∧
    ("Career" : String) ≠ "Personal Growth" := by
  refine ⟨by decide, by decide, by decide⟩

/-- C4 (amended): in a tie for the highest frequency, `topCategory` and
`dominantLifeArea` return the lexicographically smallest (by codepoint,
pandas sort order) of the tied values, not the first in the original
enumeration order. -/
theorem C4_mode_tiebreak_lex :
    (∀ (es : List LifeEvent) (m : String), topCategory es = some m →
      m ∈ es.map (fun e => e.category) ∧
      (es.map fun e => e.category).count m = maxFreq (es.map fun e => e.category) ∧
      ∀ c ∈ es.map (fun e => e.category),
        (es.map fun e => e.category).count c = maxFreq (es.map fun e => e.category) →
        strLe m c = true) ∧
    (∀ (es : List LifeEvent) (m : String), dominantLifeArea es = some m →
      m ∈ es.map (fun e => e.life_area) ∧
      (es.map fun e => e.life_area).count m = maxFreq (es.map fun e => e.life_area) ∧
      ∀ c ∈ es.map (fun e => e.life_area),
        (es.map fun e => e.life_area).count c = maxFreq (es.map fun e => e.life_area) →
        strLe m c = true) :=
  ⟨fun _ _ h => modeFirst_spec h, fun _ _ h => modeFirst_spec h⟩

/-- C4 witness: the amended statement applied to the tied example. -/
theorem C4_witness :
    "Career" ∈ [evPG, evCar].map (fun e => e.life_area) ∧
    ([evPG, evCar].map fun e => e.life_area).count "Career" =
      maxFreq ([evPG, evCar].map fun e => e.life_area) ∧
    ∀ c ∈ [evPG, evCar].map (fun e => e.life_area),
      ([evPG, evCar].map fun e => e.life_area).count c =
        maxFreq ([evPG, evCar].map fun e => e.life_area) →
      strLe "Career" c = true :=
  C4_mode_tiebreak_lex.2 [evPG, evCar] "Career" (by decide)

/-- C7: the growth trajectory is defined exactly when `count ≥ 3`; it is
`Increasing` iff the mean impact of the 3 largest-age events strictly
exceeds that of the 3 smallest-age events and `Stabilizing` otherwise; the
descending sort really orders by age (so `recent3` are 3 events of largest
age); and the spec's example evaluates to `Increasing` with recent mean 6
and early mean 2. -/
theorem C7_growth :
    (∀ es : List LifeEvent, growthTrajectory es = none ↔ es.length < 3) ∧
    (∀ es : List LifeEvent, 3 ≤ es.length →
      ((growthTrajectory es = some Trajectory.Increasing ↔
        meanImpact (early3 es) < meanImpact (recent3 es)) ∧
       (growthTrajectory es = some Trajectory.Stabilizing ↔
        ¬ meanImpact (early3 es) < meanImpact (recent3 es)))) ∧
    (∀ es : List LifeEvent, (sortByAgeDesc es).Perm es ∧
      (sortByAgeDesc es).Pairwise fun a b => b.age ≤ a.age) ∧
    growthTrajectory es7 = some Trajectory.Increasing ∧
    meanImpact (recent3 es7) = 6 ∧
    meanImpact (early3 es7) = 2 := by
  have hmr : meanImpact (recent3 es7) = 6 := by
    have h : recent3 es7 =
        [mkEvent { fCareer with age := 50, impact := 8 } 4,
         mkEvent { fCareer with age := 40, impact := 8 } 3,
         mkEvent { fCareer with age := 30, impact := 2 } 2] := by rfl
    rw [h]
    norm_num [meanImpact, mkEvent]
  have hme : meanImpact (early3 es7) = 2 := by
    have h : early3 es7 =
        [mkEvent { fCareer with age := 10, impact := 2 } 0,
         mkEvent { fCareer with age := 20, impact := 2 } 1,
         mkEvent { fCareer with age := 30, impact := 2 } 2] := by rfl
    rw [h]
    norm_num [meanImpact, mkEvent]
  have hiff : ∀ es : List LifeEvent, 3 ≤ es.length →
      ((growthTrajectory es = some Trajectory.Increasing ↔
        meanImpact (early3 es) < meanImpact (recent3 es)) ∧
       (growthTrajectory es = some Trajectory.Stabilizing ↔
        ¬ meanImpact (early3 es) < meanImpact (recent3 es))) := by
    intro es h
    have hn : ¬ es.length < 3 := by omega
    by_cases hm : meanImpact (early3 es) < meanImpact (recent3 es) <;>
      constructor <;> simp [growthTrajectory, hn, hm]
  refine ⟨?_, hiff, ?_, ?_, hmr, hme⟩
  · intro es
    by_cases h : es.length < 3
    · simp [growthTrajectory, h]
    · by_cases hm : meanImpact (early3 es) < meanImpact (recent3 es) <;>
        simp [growthTrajectory, h, hm]
  · intro es
    exact ⟨List.perm_insertionSort _ es, List.sorted_insertionSort _ es⟩
  · exact ((hiff es7 (by decide)).1).mpr (by rw [hmr, hme]; norm_num)

/-- C7 witness: the conditional part applied to the worked example. -/
theorem C7_witness :
    ((growthTrajectory es7 = some Trajectory.Increasing ↔
      meanImpact (early3 es7) < meanImpact (recent3 es7)) ∧
     (growthTrajectory es7 = some Trajectory.Stabilizing ↔
      ¬ meanImpact (early3 es7) < meanImpact (recent3 es7))) :=
  C7_growth.2.1 es7 (by decide)

/-- Helper: membership of an area name in an optional singleton rule
output. -/
theorem mem_area_ite {c : Prop} [Decidable c] (x : RecItem) (v : String) :
    (v ∈ (if c then [x] else []).map RecItem.area) ↔ (c ∧ v = x.area) := by
  split_ifs with h <;> simp [h]

/-- C8: for every non-empty collection the Mindset/gratitude recommendation
is emitted iff the fraction of Positive events is strictly below 0.4; with
10 events and 3 Positive it fires, with 10 events and 5 Positive it does
not. -/
theorem C8_rule1_iff :
    (∀ es : List LifeEvent, es ≠ [] →
      ("Mindset & Perspective" ∈ (recommendations es).map RecItem.area ↔
        posFrac es < 2/5)) ∧
    posFrac es8fire = 3/10 ∧
    ("Mindset & Perspective" ∈ (recommendations es8fire).map RecItem.area) ∧
    posFrac es8nofire = 1/2 ∧
    ¬ ("Mindset & Perspective" ∈ (recommendations es8nofire).map RecItem.area) := by
  have hgen : ∀ es : List LifeEvent,
      ("Mindset & Perspective" ∈ (recommendations es).map RecItem.area ↔
        posFrac es < 2/5) := by
    intro es
    simp only [recommendations, List.map_append, List.mem_append, mem_area_ite]
    constructor
    · rintro (((⟨h, _⟩ | ⟨_, hv⟩) | ⟨_, hv⟩) | ⟨_, hv⟩)
      · exact h
      · exact absurd hv (by decide)
      · exact absurd hv (by decide)
      · exact absurd hv (by decide)
    · intro h
      exact Or.inl (Or.inl (Or.inl ⟨h, trivial⟩))
  have hfire : posFrac es8fire = 3/10 := by
    have hc : (es8fire.countP fun e => decide (e.sentiment = "Positive")) = 3 := by rfl
    have hl : es8fire.length = 10 := by rfl
    rw [posFrac, hc, hl]
    norm_num
  have hnofire : posFrac es8nofire = 1/2 := by
    have hc : (es8nofire.countP fun e => decide (e.sentiment = "Positive")) = 5 := by rfl
    have hl : es8nofire.length = 10 := by rfl
    rw [posFrac, hc, hl]
    norm_num
  refine ⟨fun es _ => hgen es, hfire, ?_, hnofire, ?_⟩
  · exact (hgen es8fire).mpr (by rw [hfire]; norm_num)
  · intro hmem
    have := (hgen es8nofire).mp hmem
    rw [hnofire] at this
    norm_num at this

/-- C8 witness: the quantified part applied to the firing example. -/
theorem C8_witness :
    "Mindset & Perspective" ∈ (recommendations es8fire).map RecItem.area ↔
      posFrac es8fire < 2/5 :=
  C8_rule1_iff.1 es8fire (by decide)

theorem sumFst_const {ps : List (ℚ × ℚ)} {x : ℚ} (h : ∀ p ∈ ps, p.1 = x) :
    sumFst ps = ps.length * x := by
  induction ps with
  | nil => simp [sumFst]
  | cons p l ih =>
    have hp : p.1 = x := h p (by simp)
    have hl : sumFst l = l.length * x := ih fun q hq => h q (by simp [hq])
    simp only [sumFst, List.map_cons, List.sum_cons, List.length_cons] at *
    rw [hp, hl]
    push_cast
    ring

theorem sumFstSq_const {ps : List (ℚ × ℚ)} {x : ℚ} (h : ∀ p ∈ ps, p.1 = x) :
    sumFstSq ps = ps.length * (x * x) := by
  induction ps with
  | nil => simp [sumFstSq]
  | cons p l ih =>
    have hp : p.1 = x := h p (by simp)
    have hl : sumFstSq l = l.length * (x * x) := ih fun q hq => h q (by simp [hq])
    simp only [sumFstSq, List.map_cons, List.sum_cons, List.length_cons] at *
    rw [hp, hl]
    push_cast
    ring

theorem varFstN_const {ps : List (ℚ × ℚ)} {x : ℚ} (h : ∀ p ∈ ps, p.1 = x) :
    varFstN ps = 0 := by
  rw [varFstN, sumFst_const h, sumFstSq_const h]
  ring

theorem sumSnd_const {ps : List (ℚ × ℚ)} {y : ℚ} (h : ∀ p ∈ ps, p.2 = y) :
    sumSnd ps = ps.length * y := by
  induction ps with
  | nil => simp [sumSnd]
  | cons p l ih =>
    have hp : p.2 = y := h p (by simp)
    have hl : sumSnd l = l.length * y := ih fun q hq => h q (by simp [hq])
    simp only [sumSnd, List.map_cons, List.sum_cons, List.length_cons] at *
    rw [hp, hl]
    push_cast
    ring

theorem sumSndSq_const {ps : List (ℚ × ℚ)} {y : ℚ} (h : ∀ p ∈ ps, p.2 = y) :
    sumSndSq ps = ps.length * (y * y) := by
  induction ps with
  | nil => simp [sumSndSq]
  | cons p l ih =>
    have hp : p.2 = y := h p (by simp)
    have hl : sumSndSq l = l.length * (y * y) := ih fun q hq => h q (by simp [hq])
    simp only [sumSndSq, List.map_cons, List.sum_cons, List.length_cons] at *
    rw [hp, hl]
    push_cast
    ring

theorem varSndN_const {ps : List (ℚ × ℚ)} {y : ℚ} (h : ∀ p ∈ ps, p.2 = y) :
    varSndN ps = 0 := by
  rw [varSndN, sumSnd_const h, sumSndSq_const h]
  ring

/-- Expansion of the mean-centered product sum. -/
theorem sum_centered (ps : List (ℚ × ℚ)) (a b : ℚ) :
    (ps.map fun p => (p.1 - a) * (p.2 - b)).sum =
      sumProd ps - a * sumSnd ps - b * sumFst ps + ps.length * (a * b) := by
  induction ps with
  | nil => simp [sumProd, sumSnd, sumFst]
  | cons p l ih =>
    simp only [List.map_cons, List.sum_cons, sumProd, sumSnd, sumFst,
      List.length_cons] at *
    rw [ih]
    push_cast
    ring

/-- The scaled covariance equals `n` times the textbook mean-centered
covariance sum: the scaled form used by `pearson` is the standard Pearson
numerator. -/
theorem covN_centered (ps : List (ℚ × ℚ)) (h : ps ≠ []) :
    covN ps = ps.length *
      (ps.map fun p =>
        (p.1 - sumFst ps / ps.length) * (p.2 - sumSnd ps / ps.length)).sum := by
  have hn : (ps.length : ℚ) ≠ 0 := by
    simpa using h
  rw [sum_centered, covN]
  field_simp
  ring

/-- C6: on the example pairs (10,3), (25,9), (40,6) the age-impact
correlation is exactly 1/2 and the mean impact is exactly 6; the
correlation is undefined (`none`, pandas NaN) whenever there are fewer than
2 events or either series is constant (zero variance); and the scaled
numerator used here is the standard mean-centered Pearson covariance. -/
theorem C6_pearson :
    ageImpactCorr es6 = some (1/2 : ℝ) ∧
    meanImpact es6 = 6 ∧
    (∀ ps : List (ℚ × ℚ), ps.length < 2 → pearson ps = none) ∧
    (∀ (ps : List (ℚ × ℚ)) (x : ℚ), (∀ p ∈ ps, p.1 = x) → pearson ps = none) ∧
    (∀ (ps : List (ℚ × ℚ)) (y : ℚ), (∀ p ∈ ps, p.2 = y) → pearson ps = none) ∧
    (∀ ps : List (ℚ × ℚ), ps ≠ [] →
      covN ps = ps.length *
        (ps.map fun p =>
          (p.1 - sumFst ps / ps.length) * (p.2 - sumSnd ps / ps.length)).sum) := by
  have hvx : varFstN (agePairs es6) = 1350 := by
    norm_num [varFstN, sumFstSq, sumFst, agePairs, es6, mkEvent]
  have hvy : varSndN (agePairs es6) = 54 := by
    norm_num [varSndN, sumSndSq, sumSnd, agePairs, es6, mkEvent]
  have hcov : covN (agePairs es6) = 135 := by
    norm_num [covN, sumProd, sumFst, sumSnd, agePairs, es6, mkEvent]
  have hlen : (agePairs es6).length = 3 := by rfl
  refine ⟨?_, ?_, ?_, ?_, ?_, covN_centered⟩
  · have hcond : ¬ ((agePairs es6).length < 2 ∨ varFstN (agePairs es6) = 0 ∨
        varSndN (agePairs es6) = 0) := by
      rw [hlen, hvx, hvy]
      norm_num
    rw [ageImpactCorr]
    simp only [pearson]
    rw [if_neg hcond, hvx, hvy, hcov]
    congr 1
    rw [show ((1350 : ℚ) : ℝ) * ((54 : ℚ) : ℝ) = 270 ^ 2 by push_cast; norm_num]
    rw [Real.sqrt_sq (by norm_num : (0 : ℝ) ≤ 270)]
    push_cast
    norm_num
  · norm_num [meanImpact, es6, mkEvent]
  · intro ps h
    simp only [pearson]
    rw [if_pos (Or.inl h)]
  · intro ps x h
    simp only [pearson]
    rw [if_pos (Or.inr (Or.inl (varFstN_const h)))]
  · intro ps y h
    simp only [pearson]
    rw [if_pos (Or.inr (Or.inr (varSndN_const h)))]

/-- C6 witness: a single point has no correlation. -/
theorem C6_witness : pearson [((1 : ℚ), (1 : ℚ))] = none :=
  C6_pearson.2.2.1 [(1, 1)] (by norm_num)

theorem maxFreq_perm {xs ys : List String} (h : xs.Perm ys) :
    maxFreq xs = maxFreq ys := by
  have h1 : (xs.map fun c => xs.count c) = xs.map fun c => ys.count c :=
    List.map_congr_left fun c _ => h.count_eq c
  rw [maxFreq, maxFreq, foldMax, foldMax, h1]
  exact (h.map fun c => ys.count c).foldr_eq 0

theorem modeFirst_perm {xs ys : List String} (h : xs.Perm ys) :
    modeFirst xs = modeFirst ys := by
  have h1 : (xs.filter fun c => decide (xs.count c = maxFreq xs)) =
      xs.filter fun c => decide (ys.count c = maxFreq ys) :=
    List.filter_congr fun c _ => by rw [h.count_eq c, maxFreq_perm h]
  rw [modeFirst, modeFirst, h1]
  exact minStrFold_perm (h.filter _)

theorem pearson_perm {ps qs : List (ℚ × ℚ)} (h : ps.Perm qs) :
    pearson ps = pearson qs := by
  have h1 : sumFst ps = sumFst qs := (h.map _).sum_eq
  have h2 : sumSnd ps = sumSnd qs := (h.map _).sum_eq
  have h3 : sumFstSq ps = sumFstSq qs := (h.map _).sum_eq
  have h4 : sumSndSq ps = sumSndSq qs := (h.map _).sum_eq
  have h5 : sumProd ps = sumProd qs := (h.map _).sum_eq
  simp only [pearson, varFstN, varSndN, covN, h1, h2, h3, h4, h5, h.length_eq]

/-- C9: `compute` is a pure, order-independent function of the collection
contents: every permutation of the event list yields the same snapshot -
count, mean impact, age span, top category (the lexicographic tie-break
makes even the mode order-independent), grouped counts and age-impact
correlation all agree. -/
theorem C9_compute_perm_invariant (es es' : List LifeEvent) (h : es.Perm es') :
    compute es = compute es' := by
  have hcount : es.length = es'.length := h.length_eq
  have hmean : meanImpact es = meanImpact es' := by
    rw [meanImpact, meanImpact, (h.map fun e => (e.impact : ℚ)).sum_eq, h.length_eq]
  have hspan : ageSpan es = ageSpan es' := by
    have hages : (ages es).Perm (ages es') := h.map _
    rw [ageSpan, ageSpan, maxAge, maxAge, minAge, minAge,
      hages.foldr_eq 0, hages.foldr_eq none]
  have htop : topCategory es = topCategory es' := by
    rw [topCategory, topCategory]
    exact modeFirst_perm (h.map _)
  have hcnt : countByRangeSentiment es = countByRangeSentiment es' := by
    funext r s
    exact h.countP_eq _
  have hcorr : ageImpactCorr es = ageImpactCorr es' := by
    rw [ageImpactCorr, ageImpactCorr]
    exact pearson_perm (h.map _)
  rw [compute, compute, hcount, hmean, hspan, htop, hcnt, hcorr]

/-- C9 witness: a concrete two-element permutation. -/
theorem C9_witness :
    ([rawA, rawC].Perm [rawC, rawA]) ∧ compute [rawA, rawC] = compute [rawC, rawA] :=
  ⟨List.Perm.swap rawC rawA [],
   C9_compute_perm_invariant [rawA, rawC] [rawC, rawA] (List.Perm.swap rawC rawA [])⟩

end Lifemap
